import Mathlib

/-!
Shallow embedding of the persistence layer of `expense_tracker.py`
(class `ExpenseTrackerDB`, an SQLite-backed store), together with the
presentation layer's input validation (`ExpenseTrackerApp._validate_input`).

Modelling conventions:
* The SQLite database is a `DBState`: the rows of the `categories` and
  `expenses` tables, the AUTOINCREMENT counters, and a `connected` flag
  (`self.conn is not None`).
* SQL TEXT dates are Lean `String`s; SQLite compares TEXT with binary
  collation, which for ASCII ISO dates agrees with `String`'s
  lexicographic order.
* REAL amounts are modelled as `Int` (the claims under study are about
  which rows are summed and returned, not floating-point rounding).
* A raised `sqlite3.Error` inside a `try` block is environment
  nondeterminism; it is modelled by an explicit `err : Bool` oracle
  parameter on each operation that has a `try/except`.  `err = false`
  is normal operation; `err = true` means the statement execution
  raised, taking the `except` branch.
* Python optional string arguments are `Option String`; Python
  truthiness (`if start_date:`) treats both `None` and `""` as absent.
-/

set_option maxRecDepth 4000

/-- A row of the `categories` table: `id INTEGER PRIMARY KEY, name TEXT`. -/
structure Category where
  id : Nat
  name : String
deriving Repr, DecidableEq

/-- A row of the `expenses` table. -/
structure Expense where
  id : Nat
  amount : Int
  category_id : Nat
  date : String
  description : String
deriving Repr, DecidableEq

/-- A result row of `SELECT e.id, e.amount, c.name, e.date, e.description`. -/
structure ExpenseRecord where
  id : Nat
  amount : Int
  categoryName : String
  date : String
  description : String
deriving Repr, DecidableEq

/-- The state of the SQLite database held by `ExpenseTrackerDB`. -/
structure DBState where
  connected : Bool
  categories : List Category
  expenses : List Expense
  nextCategoryId : Nat
  nextExpenseId : Nat
deriving Repr, DecidableEq

/-- Well-formedness invariant of a real SQLite state: primary keys are
unique and category names are UNIQUE. -/
def WF (s : DBState) : Prop :=
  (s.categories.map Category.id).Nodup ∧
  (s.categories.map Category.name).Nodup ∧
  (s.expenses.map Expense.id).Nodup

/-- The default category list of `_insert_default_categories`. -/
def defaultCategories : List String :=
  ["Food", "Transport", "Utilities", "Rent", "Shopping", "Entertainment", "Salary", "Other"]

/-- One `INSERT OR IGNORE INTO categories (name) VALUES (?)`. -/
def insertOrIgnoreCategory (s : DBState) (name : String) : DBState :=
  if s.categories.any (fun c => c.name == name) then s
  else { s with categories := s.categories ++ [⟨s.nextCategoryId, name⟩],
                nextCategoryId := s.nextCategoryId + 1 }

/-- `ExpenseTrackerDB._insert_default_categories`. -/
def insert_default_categories (s : DBState) : DBState :=
  defaultCategories.foldl insertOrIgnoreCategory s

/-- `ExpenseTrackerDB._create_tables`: `CREATE TABLE IF NOT EXISTS` changes
no rows, then the default categories are seeded. -/
def create_tables (s : DBState) : DBState :=
  insert_default_categories s

/-- Store initialization as performed by `ExpenseTrackerDB.__init__`:
`_create_tables` runs only when the connection succeeded. -/
def initDB (s : DBState) : DBState :=
  if s.connected then create_tables s else s

/-- `ExpenseTrackerDB._get_category_id`: `SELECT id FROM categories WHERE
name = ?`, `fetchone`. -/
def resolveCategory (s : DBState) (name : String) : Option Nat :=
  (s.categories.find? (fun c => c.name == name)).map Category.id

/-- The `JOIN categories c ON e.category_id = c.id` step for one expense
row: the joined record, or `none` when no category matches (the row is
dropped by the inner join). -/
def joinRow (cats : List Category) (e : Expense) : Option ExpenseRecord :=
  match cats.find? (fun c => c.id == e.category_id) with
  | some c => some ⟨e.id, e.amount, c.name, e.date, e.description⟩
  | none => none

/-- The `conditions` entry added by `if start_date:` (Python truthiness:
`None` and `""` add no condition). -/
def condStart (sd : Option String) : List (ExpenseRecord → Bool) :=
  match sd with
  | some d => if d == "" then [] else [fun r => decide (d ≤ r.date)]
  | none => []

/-- The `conditions` entry added by `if end_date:`. -/
def condEnd (ed : Option String) : List (ExpenseRecord → Bool) :=
  match ed with
  | some d => if d == "" then [] else [fun r => decide (r.date ≤ d)]
  | none => []

/-- The `conditions` entry added by `if category_name:`. -/
def condCat (cn : Option String) : List (ExpenseRecord → Bool) :=
  match cn with
  | some c => if c == "" then [] else [fun r => r.categoryName == c]
  | none => []

/-- `ORDER BY e.date DESC` (SQLite guarantees only the date ordering;
ties are in some deterministic order). -/
def sortDateDesc (l : List ExpenseRecord) : List ExpenseRecord :=
  l.insertionSort (fun a b => b.date ≤ a.date)

/-- `ExpenseTrackerDB.add_expense`. -/
def add_expense (s : DBState) (amount : Int) (category_name date description : String)
    (err : Bool) : Bool × DBState :=
  if !s.connected then (false, s)
  else if err then (false, s)
  else match resolveCategory s category_name with
    | none => (false, s)
    | some cid =>
      (true, { s with
        expenses := s.expenses ++ [⟨s.nextExpenseId, amount, cid, date, description⟩],
        nextExpenseId := s.nextExpenseId + 1 })

/-- `ExpenseTrackerDB.get_expenses`: joined rows, the `AND`-joined
conditions of the truthy filters, `ORDER BY e.date DESC`. -/
def get_expenses (s : DBState) (start_date end_date category_name : Option String)
    (err : Bool) : List ExpenseRecord :=
  if !s.connected then []
  else if err then []
  else
    let rows := s.expenses.filterMap (joinRow s.categories)
    let conds := condStart start_date ++ condEnd end_date ++ condCat category_name
    sortDateDesc (rows.filter (fun r => conds.all (fun c => c r)))

/-- `ExpenseTrackerDB.get_expense_by_id`: the joined row `WHERE e.id = ?`,
`fetchone`. -/
def get_expense_by_id (s : DBState) (expense_id : Nat) (err : Bool) :
    Option ExpenseRecord :=
  if !s.connected then none
  else if err then none
  else (s.expenses.filterMap (joinRow s.categories)).find? (fun r => r.id == expense_id)

/-- `ExpenseTrackerDB.update_expense`: `UPDATE expenses SET ... WHERE id = ?`
(zero rows may be affected; the function does not check). -/
def update_expense (s : DBState) (expense_id : Nat) (amount : Int)
    (category_name date description : String) (err : Bool) : Bool × DBState :=
  if !s.connected then (false, s)
  else if err then (false, s)
  else match resolveCategory s category_name with
    | none => (false, s)
    | some cid =>
      (true, { s with
        expenses := s.expenses.map (fun e =>
          if e.id == expense_id then
            { e with amount := amount, category_id := cid,
                     date := date, description := description }
          else e) })

/-- The dynamically typed return value of `delete_expense`: the function
returns `True`/`False` on the normal paths but `[]` from its `except`
branch. -/
inductive PyRet where
  | bool : Bool → PyRet
  | emptyList : PyRet
deriving Repr, DecidableEq

/-- `ExpenseTrackerDB.delete_expense`: note the `except` branch
`return []`. -/
def delete_expense (s : DBState) (expense_id : Nat) (err : Bool) : PyRet × DBState :=
  if !s.connected then (PyRet.bool false, s)
  else if err then (PyRet.emptyList, s)
  else (PyRet.bool true,
    { s with expenses := s.expenses.filter (fun e => !(e.id == expense_id)) })

/-- `ExpenseTrackerDB.get_categories`: `SELECT name FROM categories ORDER BY
name ASC`. -/
def get_categories (s : DBState) (err : Bool) : List String :=
  if !s.connected then []
  else if err then []
  else (s.categories.map Category.name).insertionSort (· ≤ ·)

/-- `ExpenseTrackerDB.get_spending_by_category`: `SELECT c.name,
SUM(e.amount) ... GROUP BY c.name ORDER BY c.name ASC`, returned as the
association list underlying the Python dict comprehension. -/
def get_spending_by_category (s : DBState) (start_date end_date : Option String)
    (err : Bool) : List (String × Int) :=
  if !s.connected then []
  else if err then []
  else
    let rows := s.expenses.filterMap (joinRow s.categories)
    let conds := condStart start_date ++ condEnd end_date
    let rows := rows.filter (fun r => conds.all (fun c => c r))
    let keys := ((rows.map ExpenseRecord.categoryName).dedup).insertionSort (· ≤ ·)
    keys.map (fun n =>
      (n, ((rows.filter (fun r => r.categoryName == n)).map ExpenseRecord.amount).sum))

/-- `ExpenseTrackerApp._validate_input`.  Environment-dependent steps are
oracle parameters: `amountStrEmpty` is `not amount_str.strip()`,
`amountParse` is the result of `float(amount_str)` (`none` when it raises
`ValueError`), `dateStrEmpty` is `not date_str.strip()` and `dateParses`
is whether `strptime(date_str, "%Y-%m-%d")` succeeds. -/
def validate_input (amountStrEmpty : Bool) (amountParse : Option Int)
    (category_name : String) (dateStrEmpty : Bool) (dateParses : Bool) :
    Bool × String :=
  if amountStrEmpty then (false, "Amount cannot be empty.")
  else match amountParse with
  | none => (false, "Amount must be a valid number (e.g., 100 or 50.75).")
  | some amount =>
    if amount ≤ 0 then (false, "Amount must be a positive number.")
    else if category_name.trim == "" then
      (false, "Category cannot be empty. Please select one.")
    else if dateStrEmpty then (false, "Date cannot be empty.")
    else if !dateParses then (false, "Date format must be YYYY-MM-DD.")
    else (true, "")

/-! Helper lemmas. -/

instance : IsTotal ExpenseRecord (fun a b => b.date ≤ a.date) :=
  ⟨fun a b => le_total b.date a.date⟩

instance : IsTrans ExpenseRecord (fun a b => b.date ≤ a.date) :=
  ⟨fun _ _ _ h₁ h₂ => le_trans h₂ h₁⟩

lemma sortDateDesc_perm (l : List ExpenseRecord) : (sortDateDesc l).Perm l :=
  List.perm_insertionSort _ l

lemma sortDateDesc_sorted (l : List ExpenseRecord) :
    (sortDateDesc l).Sorted (fun a b => b.date ≤ a.date) :=
  List.sorted_insertionSort _ l

lemma joinRow_fields {cats : List Category} {e : Expense} {r : ExpenseRecord}
    (h : joinRow cats e = some r) :
    r.id = e.id ∧ r.amount = e.amount ∧ r.date = e.date ∧ r.description = e.description := by
  unfold joinRow at h
  cases hf : cats.find? (fun c => c.id == e.category_id) with
  | none => rw [hf] at h; exact absurd h (by simp)
  | some c => rw [hf] at h; cases h; exact ⟨rfl, rfl, rfl, rfl⟩

lemma find?_beq_of_mem_nodup {α β : Type} [BEq β] [LawfulBEq β] (f : α → β) :
    ∀ (l : List α), (l.map f).Nodup → ∀ a ∈ l, l.find? (fun x => f x == f a) = some a := by
  intro l
  induction l with
  | nil => intro _ a ha; exact absurd ha (List.not_mem_nil a)
  | cons x xs ih =>
    intro hnd a ha
    rcases List.mem_cons.mp ha with rfl | hmem
    · simp [List.find?]
    · have hne : f x ≠ f a := by
        intro hcon
        have : f a ∈ xs.map f := List.mem_map_of_mem f hmem
        rw [← hcon] at this
        exact (List.nodup_cons.mp (by simpa using hnd)).1 this
      have : (f x == f a) = false := beq_false_of_ne hne
      simp only [List.find?, this]
      exact ih (List.nodup_cons.mp (by simpa using hnd)).2 a hmem

lemma resolveCategory_some {s : DBState} {cn : String} {cid : Nat}
    (h : resolveCategory s cn = some cid) :
    ∃ c : Category, c ∈ s.categories ∧ c.id = cid ∧ c.name = cn ∧
      s.categories.find? (fun c => c.name == cn) = some c := by
  unfold resolveCategory at h
  cases hf : s.categories.find? (fun c => c.name == cn) with
  | none => rw [hf] at h; exact absurd h (by simp)
  | some c =>
    rw [hf] at h
    refine ⟨c, List.mem_of_find?_eq_some hf, by simpa using h, ?_, rfl⟩
    have := List.find?_some hf
    exact eq_of_beq this

lemma joinRow_of_resolve {s : DBState} {cn : String} {cid : Nat}
    (hwf : (s.categories.map Category.id).Nodup)
    (h : resolveCategory s cn = some cid) (i : Nat) (am : Int) (dt ds : String) :
    joinRow s.categories ⟨i, am, cid, dt, ds⟩ = some ⟨i, am, cn, dt, ds⟩ := by
  obtain ⟨c, hmem, hid, hname, _⟩ := resolveCategory_some h
  have hfind : s.categories.find? (fun x => x.id == c.id) = some c :=
    find?_beq_of_mem_nodup Category.id s.categories hwf c hmem
  rw [hid] at hfind
  unfold joinRow
  rw [show (⟨i, am, cid, dt, ds⟩ : Expense).category_id = cid from rfl, hfind]
  simp [hname]

lemma condStart_all (sd : Option String) (r : ExpenseRecord) :
    (condStart sd).all (fun c => c r)
      = (match sd with | none => true | some d => (d == "") || decide (d ≤ r.date)) := by
  cases sd with
  | none => rfl
  | some d =>
    by_cases h : d == ""
    · simp [condStart, h]
    · simp [condStart, h]

lemma condEnd_all (ed : Option String) (r : ExpenseRecord) :
    (condEnd ed).all (fun c => c r)
      = (match ed with | none => true | some d => (d == "") || decide (r.date ≤ d)) := by
  cases ed with
  | none => rfl
  | some d =>
    by_cases h : d == ""
    · simp [condEnd, h]
    · simp [condEnd, h]

lemma condCat_all (cn : Option String) (r : ExpenseRecord) :
    (condCat cn).all (fun c => c r)
      = (match cn with | none => true | some c => (c == "") || (r.categoryName == c)) := by
  cases cn with
  | none => rfl
  | some c =>
    by_cases h : c == ""
    · simp [condCat, h]
    · simp [condCat, h]

lemma DBState_eta (s : DBState) (h : s.connected = true) :
    (⟨true, s.categories, s.expenses, s.nextCategoryId, s.nextExpenseId⟩ : DBState) = s := by
  cases s
  simp_all

/-! Claim theorems. -/

/-- C9: passing an empty string for any optional filter argument of
`get_expenses` or `get_spending_by_category` behaves exactly as if the
filter were absent (Python truthiness adds no condition for `""`), so
e.g. filtering by the empty category name returns all expenses. -/
theorem empty_string_filter_is_no_filter (s : DBState) (sd ed cn : Option String) (e : Bool) :
    get_expenses s (some "") ed cn e = get_expenses s none ed cn e ∧
    get_expenses s sd (some "") cn e = get_expenses s sd none cn e ∧
    get_expenses s sd ed (some "") e = get_expenses s sd ed none e ∧
    get_spending_by_category s (some "") ed e = get_spending_by_category s none ed e ∧
    get_spending_by_category s sd (some "") e = get_spending_by_category s sd none e := by
  refine ⟨?_, ?_, ?_, ?_, ?_⟩ <;>
    simp [get_expenses, get_spending_by_category, condStart, condEnd, condCat]

/-- C6: `add_expense` with a category name absent from `get_categories`
returns failure and leaves the store unchanged; in particular the
`get_expenses` count is unchanged. -/
theorem addExpense_unknown_category_fails (s : DBState) (am : Int) (cn dt ds : String)
    (h : cn ∉ get_categories s false) :
    add_expense s am cn dt ds false = (false, s) ∧
    (get_expenses (add_expense s am cn dt ds false).2 none none none false).length
      = (get_expenses s none none none false).length := by
  have hmain : add_expense s am cn dt ds false = (false, s) := by
    by_cases hc : s.connected
    · have hnotin : cn ∉ s.categories.map Category.name := by
        intro hmem
        apply h
        unfold get_categories
        simpa [hc] using (List.mem_insertionSort (· ≤ ·)).mpr hmem
      have hres : resolveCategory s cn = none := by
        unfold resolveCategory
        rw [List.find?_eq_none.mpr ?_]
        · rfl
        · intro c hcmem hbeq
          exact hnotin (by
            have : c.name = cn := eq_of_beq (by simpa using hbeq)
            exact this ▸ List.mem_map_of_mem Category.name hcmem)
      unfold add_expense
      simp [hc, hres]
    · unfold add_expense
      simp [hc]
  exact ⟨hmain, by rw [hmain]⟩

/-- C7: after `delete_expense` succeeds on a connected store,
`get_expense_by_id` on that id returns `none`, and deleting the same id
again still returns success (idempotent deletion). -/
theorem deleteExpense_idempotent (s : DBState) (eid : Nat) (hconn : s.connected = true) :
    (delete_expense s eid false).1 = PyRet.bool true ∧
    get_expense_by_id (delete_expense s eid false).2 eid false = none ∧
    (delete_expense (delete_expense s eid false).2 eid false).1 = PyRet.bool true := by
  have h1 : delete_expense s eid false
      = (PyRet.bool true, { s with expenses := s.expenses.filter (fun e => !(e.id == eid)) }) := by
    unfold delete_expense
    simp [hconn]
  refine ⟨by rw [h1], ?_, by rw [h1]; unfold delete_expense; simp [hconn]⟩
  rw [h1]
  unfold get_expense_by_id
  simp only [hconn, Bool.not_true, Bool.false_eq_true, if_false, ite_false]
  rw [List.find?_eq_none.mpr ?_]
  intro r hr
  obtain ⟨e, he, hje⟩ := List.mem_filterMap.mp hr
  have hid := (joinRow_fields hje).1
  have hne : (e.id == eid) = false := by
    have := (List.mem_filter.mp he).2
    simpa using this
  simp [hid, hne]

/-- C4 counterexample: on a store with the category `Food` and no
expenses, id 1 identifies no existing expense (`get_expense_by_id`
returns `none`), yet `update_expense` on id 1 returns success, refuting
the claim that it returns failure when the id does not exist. -/
theorem updateExpense_missing_id_counterexample :
    get_expense_by_id (⟨true, [⟨1, "Food"⟩], [], 2, 1⟩ : DBState) 1 false = none ∧
    (update_expense (⟨true, [⟨1, "Food"⟩], [], 2, 1⟩ : DBState) 1 5 "Food" "2024-01-01" "" false)
      = (true, (⟨true, [⟨1, "Food"⟩], [], 2, 1⟩ : DBState)) := by
  exact ⟨rfl, rfl⟩

/-- C4 amended: `update_expense` returns failure (leaving the store
unchanged) when the category name does not resolve; but when the id does
not identify an existing expense and the category resolves, it returns
success with the store unchanged (the UPDATE affects zero rows) rather
than failure. -/
theorem updateExpense_failure_contract (s : DBState) (eid : Nat) (am : Int) (cn dt ds : String)
    (hconn : s.connected = true) :
    (resolveCategory s cn = none → update_expense s eid am cn dt ds false = (false, s)) ∧
    (∀ cid, resolveCategory s cn = some cid → (∀ e ∈ s.expenses, e.id ≠ eid) →
      update_expense s eid am cn dt ds false = (true, s)) := by
  constructor
  · intro hres
    unfold update_expense
    simp [hconn, hres]
  · intro cid hres hid
    unfold update_expense
    simp only [hconn, Bool.not_true, Bool.false_eq_true, if_false, ite_false, hres]
    have hmap : s.expenses.map (fun e =>
        if e.id == eid then
          { e with amount := am, category_id := cid, date := dt, description := ds }
        else e) = s.expenses := by
      have hcongr : ∀ e ∈ s.expenses, (fun e =>
          if e.id == eid then
            { e with amount := am, category_id := cid, date := dt, description := ds }
          else e) e = id e := by
        intro e he
        simp [beq_false_of_ne (hid e he)]
      rw [List.map_congr_left hcongr, List.map_id]
    rw [hmap, DBState_eta s hconn]

/-- C8: on a connected store, a raised `sqlite3.Error` during the DELETE
makes `delete_expense` return the empty list `[]` from its `except`
branch, which is not the documented failure value `False` (nor `True`). -/
theorem deleteExpense_error_branch_returns_list :
    delete_expense (⟨true, [], [], 1, 1⟩ : DBState) 1 true
      = (PyRet.emptyList, (⟨true, [], [], 1, 1⟩ : DBState)) ∧
    PyRet.emptyList ≠ PyRet.bool false ∧ PyRet.emptyList ≠ PyRet.bool true := by
  refine ⟨rfl, ?_, ?_⟩ <;> intro h <;> cases h

/-- C10: the store never checks amount positivity: for every numeric
amount (zero and negative included), `add_expense` succeeds and stores
that amount, `update_expense` succeeds and stores that amount on the
matching row; positivity is enforced only by the presentation layer's
`_validate_input`, which rejects any amount `≤ 0` before the store is
called. -/
theorem store_ignores_amount_sign (s : DBState) (am : Int) (cn dt ds : String) (eid cid : Nat)
    (hconn : s.connected = true) (hres : resolveCategory s cn = some cid) :
    add_expense s am cn dt ds false
      = (true, { s with
                 expenses := s.expenses ++ [⟨s.nextExpenseId, am, cid, dt, ds⟩],
                 nextExpenseId := s.nextExpenseId + 1 }) ∧
    (update_expense s eid am cn dt ds false).1 = true ∧
    (∀ e ∈ s.expenses, e.id = eid →
        (⟨eid, am, cid, dt, ds⟩ : Expense) ∈ (update_expense s eid am cn dt ds false).2.expenses) ∧
    (am ≤ 0 →
        validate_input false (some am) cn false true
          = (false, "Amount must be a positive number.")) := by
  refine ⟨?_, ?_, ?_, ?_⟩
  · unfold add_expense
    simp [hconn, hres]
  · unfold update_expense
    simp [hconn, hres]
  · intro e he heid
    have hstep : update_expense s eid am cn dt ds false
        = (true, { s with expenses := s.expenses.map (fun x =>
            if x.id == eid then
              { x with amount := am, category_id := cid, date := dt, description := ds }
            else x) }) := by
      unfold update_expense
      simp [hconn, hres]
    rw [hstep]
    have hmem := List.mem_map_of_mem (fun x : Expense =>
      if x.id == eid then
        { x with amount := am, category_id := cid, date := dt, description := ds }
      else x) he
    have hbeq : (e.id == eid) = true := by simp [heid]
    simp only [hbeq, if_true] at hmem
    simp only [heid] at hmem
    exact hmem
  · intro hle
    unfold validate_input
    simp [hle]

/-- Witness for C6 at a concrete store: `Ghost` is not a known category
and `add_expense` fails, leaving the store unchanged. -/
theorem addExpense_unknown_category_fails_witness :
    ("Ghost" : String) ∉ get_categories (⟨true, [⟨1, "Food"⟩], [], 2, 1⟩ : DBState) false ∧
    add_expense (⟨true, [⟨1, "Food"⟩], [], 2, 1⟩ : DBState) 5 "Ghost" "2024-01-01" "" false
      = (false, (⟨true, [⟨1, "Food"⟩], [], 2, 1⟩ : DBState)) :=
  ⟨by decide, (addExpense_unknown_category_fails _ 5 "Ghost" "2024-01-01" "" (by decide)).1⟩

/-- Witness for C7 at a concrete store with one expense of id 1. -/
theorem deleteExpense_idempotent_witness :
    (delete_expense (⟨true, [⟨1, "Food"⟩], [⟨1, 7, 1, "2024-01-05", ""⟩], 2, 2⟩ : DBState)
        1 false).1 = PyRet.bool true ∧
    get_expense_by_id (delete_expense
        (⟨true, [⟨1, "Food"⟩], [⟨1, 7, 1, "2024-01-05", ""⟩], 2, 2⟩ : DBState) 1 false).2
        1 false = none ∧
    (delete_expense (delete_expense
        (⟨true, [⟨1, "Food"⟩], [⟨1, 7, 1, "2024-01-05", ""⟩], 2, 2⟩ : DBState) 1 false).2
        1 false).1 = PyRet.bool true :=
  deleteExpense_idempotent (⟨true, [⟨1, "Food"⟩], [⟨1, 7, 1, "2024-01-05", ""⟩], 2, 2⟩ : DBState)
    1 rfl

/-- Witness for the amended C4 at a concrete store: an unknown category
makes the update fail, while a missing id with a known category makes it
"succeed" with the store unchanged. -/
theorem updateExpense_failure_contract_witness :
    update_expense (⟨true, [⟨1, "Food"⟩], [⟨1, 7, 1, "2024-01-05", ""⟩], 2, 2⟩ : DBState)
        1 5 "Ghost" "2024-01-01" "" false
      = (false, (⟨true, [⟨1, "Food"⟩], [⟨1, 7, 1, "2024-01-05", ""⟩], 2, 2⟩ : DBState)) ∧
    update_expense (⟨true, [⟨1, "Food"⟩], [⟨1, 7, 1, "2024-01-05", ""⟩], 2, 2⟩ : DBState)
        9 5 "Food" "2024-01-01" "" false
      = (true, (⟨true, [⟨1, "Food"⟩], [⟨1, 7, 1, "2024-01-05", ""⟩], 2, 2⟩ : DBState)) :=
  ⟨(updateExpense_failure_contract _ 1 5 "Ghost" "2024-01-01" "" rfl).1 rfl,
   (updateExpense_failure_contract _ 9 5 "Food" "2024-01-01" "" rfl).2 1 rfl (by decide)⟩

/-- Witness for C10 at a concrete store: a negative amount is accepted
and stored by both mutators, while `_validate_input` rejects it. -/
theorem store_ignores_amount_sign_witness :
    (add_expense (⟨true, [⟨1, "Food"⟩], [⟨1, 7, 1, "2024-01-05", ""⟩], 2, 2⟩ : DBState)
        (-3) "Food" "2024-01-02" "x" false).1 = true ∧
    (⟨1, -3, 1, "2024-01-03", ""⟩ : Expense) ∈
      (update_expense (⟨true, [⟨1, "Food"⟩], [⟨1, 7, 1, "2024-01-05", ""⟩], 2, 2⟩ : DBState)
        1 (-3) "Food" "2024-01-03" "" false).2.expenses ∧
    validate_input false (some (-3)) "Food" false true
      = (false, "Amount must be a positive number.") := by
  have h := store_ignores_amount_sign
    (⟨true, [⟨1, "Food"⟩], [⟨1, 7, 1, "2024-01-05", ""⟩], 2, 2⟩ : DBState)
    (-3) "Food" "2024-01-03" "" 1 1 rfl rfl
  have h2 := store_ignores_amount_sign
    (⟨true, [⟨1, "Food"⟩], [⟨1, 7, 1, "2024-01-05", ""⟩], 2, 2⟩ : DBState)
    (-3) "Food" "2024-01-02" "x" 1 1 rfl rfl
  refine ⟨?_, h.2.2.1 ⟨1, 7, 1, "2024-01-05", ""⟩ (by decide) rfl, h.2.2.2 (by decide)⟩
  rw [h2.1]

lemma insertOrIgnore_present {s : DBState} {n : String}
    (h : s.categories.any (fun c => c.name == n) = true) :
    insertOrIgnoreCategory s n = s := by
  unfold insertOrIgnoreCategory
  simp [h]

lemma insertOrIgnore_adds (s : DBState) (n : String) :
    (insertOrIgnoreCategory s n).categories.any (fun c => c.name == n) = true := by
  unfold insertOrIgnoreCategory
  by_cases h : s.categories.any (fun c => c.name == n) = true
  · simp [h]
  · simp [h, List.any_append]

lemma insertOrIgnore_mono {s : DBState} {m : String} (n : String)
    (h : s.categories.any (fun c => c.name == m) = true) :
    (insertOrIgnoreCategory s n).categories.any (fun c => c.name == m) = true := by
  unfold insertOrIgnoreCategory
  by_cases hc : s.categories.any (fun c => c.name == n) = true
  · simp [hc, h]
  · simp [hc, List.any_append, h]

lemma insertOrIgnore_connected (s : DBState) (n : String) :
    (insertOrIgnoreCategory s n).connected = s.connected := by
  unfold insertOrIgnoreCategory
  split <;> rfl

lemma foldl_insert_preserves (l : List String) :
    ∀ (s : DBState) (n : String), s.categories.any (fun c => c.name == n) = true →
      (l.foldl insertOrIgnoreCategory s).categories.any (fun c => c.name == n) = true := by
  induction l with
  | nil => intro s n h; exact h
  | cons x xs ih => intro s n h; exact ih _ n (insertOrIgnore_mono x h)

lemma foldl_insert_present (l : List String) :
    ∀ (s : DBState) (n : String), n ∈ l →
      (l.foldl insertOrIgnoreCategory s).categories.any (fun c => c.name == n) = true := by
  induction l with
  | nil => intro s n hn; exact absurd hn (List.not_mem_nil n)
  | cons x xs ih =>
    intro s n hn
    rcases List.mem_cons.mp hn with rfl | hmem
    · exact foldl_insert_preserves xs _ n (insertOrIgnore_adds s n)
    · exact ih _ n hmem

lemma foldl_insert_id (l : List String) :
    ∀ (s : DBState), (∀ n ∈ l, s.categories.any (fun c => c.name == n) = true) →
      l.foldl insertOrIgnoreCategory s = s := by
  induction l with
  | nil => intro s _; rfl
  | cons x xs ih =>
    intro s h
    rw [List.foldl_cons, insertOrIgnore_present (h x (List.mem_cons_self x xs))]
    exact ih s (fun n hn => h n (List.mem_cons_of_mem x hn))

lemma foldl_insert_connected (l : List String) :
    ∀ s : DBState, (l.foldl insertOrIgnoreCategory s).connected = s.connected := by
  induction l with
  | nil => intro s; rfl
  | cons x xs ih => intro s; rw [List.foldl_cons, ih, insertOrIgnore_connected]

lemma initDB_of_connected {s : DBState} (hconn : s.connected = true) :
    initDB s = defaultCategories.foldl insertOrIgnoreCategory s := by
  unfold initDB create_tables insert_default_categories
  rw [if_pos hconn]

lemma initDB_connected (s : DBState) : (initDB s).connected = s.connected := by
  by_cases h : s.connected = true
  · rw [initDB_of_connected h, foldl_insert_connected]
  · unfold initDB
    rw [if_neg h]

/-- C5: initialization is idempotent: running it any number of times in
succession equals running it once (in particular category rows are never
duplicated and the `get_categories` count stays constant), and every
default category is present after the first run. -/
theorem initDB_idempotent_and_seeded (s : DBState) (k : Nat) (hconn : s.connected = true) :
    initDB^[k + 1] s = initDB s ∧
    (get_categories (initDB (initDB s)) false).length
      = (get_categories (initDB s) false).length ∧
    ∀ n ∈ defaultCategories, n ∈ get_categories (initDB s) false := by
  have hc2 : (initDB s).connected = true := by rw [initDB_connected]; exact hconn
  have hpres : ∀ n ∈ defaultCategories,
      (initDB s).categories.any (fun c => c.name == n) = true := by
    intro n hn
    rw [initDB_of_connected hconn]
    exact foldl_insert_present defaultCategories s n hn
  have hidem : initDB (initDB s) = initDB s := by
    rw [initDB_of_connected hc2]
    exact foldl_insert_id defaultCategories (initDB s) hpres
  refine ⟨?_, by rw [hidem], ?_⟩
  · induction k with
    | zero => rfl
    | succ k ih => rw [Function.iterate_succ_apply', ih, hidem]
  · intro n hn
    unfold get_categories
    simp only [hc2, Bool.not_true, Bool.false_eq_true, if_false, ite_false]
    rw [List.mem_insertionSort]
    obtain ⟨c, hc, hb⟩ := List.any_eq_true.mp (hpres n hn)
    exact (eq_of_beq hb) ▸ List.mem_map_of_mem Category.name hc

/-- Witness for C5 at a concrete fresh connected store, iterated twice. -/
theorem initDB_idempotent_and_seeded_witness :
    initDB^[2] (⟨true, [], [], 1, 1⟩ : DBState) = initDB (⟨true, [], [], 1, 1⟩ : DBState) ∧
    (get_categories (initDB (initDB (⟨true, [], [], 1, 1⟩ : DBState))) false).length
      = (get_categories (initDB (⟨true, [], [], 1, 1⟩ : DBState)) false).length ∧
    "Food" ∈ get_categories (initDB (⟨true, [], [], 1, 1⟩ : DBState)) false ∧
    "Other" ∈ get_categories (initDB (⟨true, [], [], 1, 1⟩ : DBState)) false := by
  have h := initDB_idempotent_and_seeded (⟨true, [], [], 1, 1⟩ : DBState) 1 rfl
  exact ⟨h.1, h.2.1, h.2.2 "Food" (by decide), h.2.2 "Other" (by decide)⟩

lemma conds_all_eq (sd ed cn : Option String) (r : ExpenseRecord) :
    (condStart sd ++ condEnd ed ++ condCat cn).all (fun c => c r)
      = ((match sd with | none => true | some d => (d == "") || decide (d ≤ r.date))
         && (match ed with | none => true | some d => (d == "") || decide (r.date ≤ d))
         && (match cn with | none => true | some c => (c == "") || (r.categoryName == c))) := by
  rw [List.all_append, List.all_append, condStart_all, condEnd_all, condCat_all]

lemma get_expenses_unfiltered {t : DBState} (ht : t.connected = true) :
    get_expenses t none none none false
      = sortDateDesc (t.expenses.filterMap (joinRow t.categories)) := by
  unfold get_expenses
  simp [ht, condStart, condEnd, condCat]

/-- C3: on a connected store, `get_expenses` returns exactly the (joined)
expense records satisfying the conjunction of the supplied filters
(`date ≥ startDate`, `date ≤ endDate`, category name equal; an absent or
empty filter imposes nothing), ordered by date descending. -/
theorem getExpenses_filters_and_sorts (s : DBState) (sd ed cn : Option String)
    (hconn : s.connected = true) :
    (get_expenses s sd ed cn false).Perm
      ((s.expenses.filterMap (joinRow s.categories)).filter (fun r =>
        (match sd with | none => true | some d => (d == "") || decide (d ≤ r.date))
        && (match ed with | none => true | some d => (d == "") || decide (r.date ≤ d))
        && (match cn with | none => true | some c => (c == "") || (r.categoryName == c)))) ∧
    (get_expenses s sd ed cn false).Sorted (fun a b => b.date ≤ a.date) := by
  have hdef : get_expenses s sd ed cn false
      = sortDateDesc ((s.expenses.filterMap (joinRow s.categories)).filter
          (fun r => (condStart sd ++ condEnd ed ++ condCat cn).all (fun c => c r))) := by
    unfold get_expenses
    simp [hconn]
  have hfeq : (s.expenses.filterMap (joinRow s.categories)).filter
        (fun r => (condStart sd ++ condEnd ed ++ condCat cn).all (fun c => c r))
      = (s.expenses.filterMap (joinRow s.categories)).filter (fun r =>
        (match sd with | none => true | some d => (d == "") || decide (d ≤ r.date))
        && (match ed with | none => true | some d => (d == "") || decide (r.date ≤ d))
        && (match cn with | none => true | some c => (c == "") || (r.categoryName == c))) :=
    List.filter_congr (fun r _ => conds_all_eq sd ed cn r)
  refine ⟨?_, by rw [hdef]; exact sortDateDesc_sorted _⟩
  rw [hdef, hfeq]
  exact sortDateDesc_perm _

/-- Witness for C3 at a concrete two-expense store with a start-date
filter that keeps only the newer expense. -/
theorem getExpenses_filters_and_sorts_witness :
    (get_expenses (⟨true, [⟨1, "Food"⟩],
        [⟨1, 50, 1, "2024-01-10", "Lunch"⟩, ⟨2, 20, 1, "2024-01-12", ""⟩], 2, 3⟩ : DBState)
        (some "2024-01-11") none none false).Perm
      (((⟨true, [⟨1, "Food"⟩],
        [⟨1, 50, 1, "2024-01-10", "Lunch"⟩, ⟨2, 20, 1, "2024-01-12", ""⟩], 2, 3⟩ :
          DBState).expenses.filterMap
        (joinRow [⟨1, "Food"⟩])).filter (fun r =>
        (match some "2024-01-11" with
         | none => true | some d => (d == "") || decide (d ≤ r.date))
        && (match (none : Option String) with
            | none => true | some d => (d == "") || decide (r.date ≤ d))
        && (match (none : Option String) with
            | none => true | some c => (c == "") || (r.categoryName == c)))) ∧
    (get_expenses (⟨true, [⟨1, "Food"⟩],
        [⟨1, 50, 1, "2024-01-10", "Lunch"⟩, ⟨2, 20, 1, "2024-01-12", ""⟩], 2, 3⟩ : DBState)
        (some "2024-01-11") none none false).Sorted (fun a b => b.date ≤ a.date) :=
  getExpenses_filters_and_sorts
    (⟨true, [⟨1, "Food"⟩],
      [⟨1, 50, 1, "2024-01-10", "Lunch"⟩, ⟨2, 20, 1, "2024-01-12", ""⟩], 2, 3⟩ : DBState)
    (some "2024-01-11") none none rfl

/-- C2: after a successful `add_expense` on a well-formed connected store,
`get_expenses` contains exactly one additional record, whose fields are
the inserted amount, category name, date and description, and the list is
still sorted by date descending. -/
theorem addExpense_adds_one_record (s : DBState) (am : Int) (cn dt ds : String) (cid : Nat)
    (hwf : WF s) (hconn : s.connected = true) (hres : resolveCategory s cn = some cid)
    (hpos : 0 < am) :
    (add_expense s am cn dt ds false).1 = true ∧
    (get_expenses (add_expense s am cn dt ds false).2 none none none false).Perm
      ((⟨s.nextExpenseId, am, cn, dt, ds⟩ : ExpenseRecord)
        :: get_expenses s none none none false) ∧
    (get_expenses (add_expense s am cn dt ds false).2 none none none false).Sorted
      (fun a b => b.date ≤ a.date) := by
  have hstep : add_expense s am cn dt ds false
      = (true, { s with
          expenses := s.expenses ++ [⟨s.nextExpenseId, am, cid, dt, ds⟩],
          nextExpenseId := s.nextExpenseId + 1 }) := by
    unfold add_expense
    simp [hconn, hres]
  have hconn2 : ({ s with
      expenses := s.expenses ++ [⟨s.nextExpenseId, am, cid, dt, ds⟩],
      nextExpenseId := s.nextExpenseId + 1 } : DBState).connected = true := hconn
  have hjr : joinRow s.categories (⟨s.nextExpenseId, am, cid, dt, ds⟩ : Expense)
      = some ⟨s.nextExpenseId, am, cn, dt, ds⟩ :=
    joinRow_of_resolve hwf.1 hres _ _ _ _
  have hsingle : ([(⟨s.nextExpenseId, am, cid, dt, ds⟩ : Expense)]).filterMap
      (joinRow s.categories) = [(⟨s.nextExpenseId, am, cn, dt, ds⟩ : ExpenseRecord)] := by
    rw [List.filterMap_cons, hjr]
    rfl
  refine ⟨by rw [hstep], ?_, ?_⟩
  · rw [hstep, get_expenses_unfiltered hconn2, get_expenses_unfiltered hconn]
    show (sortDateDesc ((s.expenses ++ [(⟨s.nextExpenseId, am, cid, dt, ds⟩ : Expense)]).filterMap
      (joinRow s.categories))).Perm _
    rw [List.filterMap_append, hsingle]
    refine (sortDateDesc_perm _).trans ?_
    refine (List.perm_append_singleton _ _).trans ?_
    exact ((sortDateDesc_perm _).symm).cons _
  · rw [hstep, get_expenses_unfiltered hconn2]
    exact sortDateDesc_sorted _

/-- Witness for C2: inserting the second `Food` expense of the worked
scenario into a one-expense store. -/
theorem addExpense_adds_one_record_witness :
    (add_expense (⟨true, [⟨1, "Food"⟩], [⟨1, 50, 1, "2024-01-10", "Lunch"⟩], 2, 2⟩ : DBState)
        20 "Food" "2024-01-12" "" false).1 = true ∧
    (get_expenses (add_expense
        (⟨true, [⟨1, "Food"⟩], [⟨1, 50, 1, "2024-01-10", "Lunch"⟩], 2, 2⟩ : DBState)
        20 "Food" "2024-01-12" "" false).2 none none none false).Perm
      ((⟨2, 20, "Food", "2024-01-12", ""⟩ : ExpenseRecord)
        :: get_expenses
            (⟨true, [⟨1, "Food"⟩], [⟨1, 50, 1, "2024-01-10", "Lunch"⟩], 2, 2⟩ : DBState)
            none none none false) ∧
    (get_expenses (add_expense
        (⟨true, [⟨1, "Food"⟩], [⟨1, 50, 1, "2024-01-10", "Lunch"⟩], 2, 2⟩ : DBState)
        20 "Food" "2024-01-12" "" false).2 none none none false).Sorted
      (fun a b => b.date ≤ a.date) :=
  addExpense_adds_one_record
    (⟨true, [⟨1, "Food"⟩], [⟨1, 50, 1, "2024-01-10", "Lunch"⟩], 2, 2⟩ : DBState)
    20 "Food" "2024-01-12" "" 1 ⟨by decide, by decide, by decide⟩ rfl rfl (by decide)

lemma conds2_all_eq (sd ed : Option String) (r : ExpenseRecord) :
    (condStart sd ++ condEnd ed).all (fun c => c r)
      = ((match sd with | none => true | some d => (d == "") || decide (d ≤ r.date))
         && (match ed with | none => true | some d => (d == "") || decide (r.date ≤ d))) := by
  rw [List.all_append, condStart_all, condEnd_all]

lemma lookup_map_self (g : String → Int) :
    ∀ (keys : List String) (n : String),
      (keys.map (fun k => (k, g k))).lookup n = if n ∈ keys then some (g n) else none := by
  intro keys
  induction keys with
  | nil => intro n; simp
  | cons k ks ih =>
    intro n
    cases hnk : n == k with
    | true =>
      have hek : n = k := eq_of_beq hnk
      subst hek
      simp [List.lookup, hnk]
    | false =>
      have hne : n ≠ k := ne_of_beq_false hnk
      simp [List.lookup, hnk, ih n, List.mem_cons, hne]

lemma mem_map_name_iff (rows : List ExpenseRecord) (n : String) :
    n ∈ rows.map ExpenseRecord.categoryName
      ↔ rows.filter (fun r => r.categoryName == n) ≠ [] := by
  rw [Ne, List.filter_eq_nil_iff]
  simp only [List.mem_map]
  constructor
  · rintro ⟨r, hr, hname⟩ hall
    exact hall r hr (by simp [hname])
  · intro h
    by_contra hno
    apply h
    intro r hr hbeq
    exact hno ⟨r, hr, eq_of_beq hbeq⟩

lemma filterMap_join_amounts (cats : List Category) (df : ExpenseRecord → Bool)
    (de : Expense → Bool) (n : String)
    (hdf : ∀ e r, joinRow cats e = some r → df r = de e) :
    ∀ es : List Expense,
      (((es.filterMap (joinRow cats)).filter df).filter
          (fun r => r.categoryName == n)).map ExpenseRecord.amount
        = (es.filter (fun e =>
            ((joinRow cats e).elim false fun r => r.categoryName == n)
              && de e)).map Expense.amount := by
  intro es
  induction es with
  | nil => rfl
  | cons e es ih =>
    cases hj : joinRow cats e with
    | none =>
      have hl : (e :: es).filterMap (joinRow cats) = es.filterMap (joinRow cats) := by
        simp [List.filterMap_cons, hj]
      have hr : (e :: es).filter (fun e =>
            ((joinRow cats e).elim false fun r => r.categoryName == n) && de e)
          = es.filter (fun e =>
            ((joinRow cats e).elim false fun r => r.categoryName == n) && de e) := by
        simp [List.filter_cons, hj]
      rw [hl, hr]
      exact ih
    | some r =>
      have hl : (e :: es).filterMap (joinRow cats) = r :: es.filterMap (joinRow cats) := by
        simp [List.filterMap_cons, hj]
      have hram : r.amount = e.amount := (joinRow_fields hj).2.1
      have hdfr : df r = de e := hdf e r hj
      rw [hl]
      simp only [List.filter_filter] at ih
      cases hde : de e with
      | false =>
        simp [List.filter_cons, List.filter_filter, hdfr, hde, hj, ih]
      | true =>
        cases hbn : (r.categoryName == n) with
        | false => simp [List.filter_cons, List.filter_filter, hdfr, hde, hbn, hj, ih]
        | true => simp [List.filter_cons, List.filter_filter, hdfr, hde, hbn, hj, hram, ih]

lemma map_fst_map_pair (g : String → Int) :
    ∀ keys : List String, ((keys.map (fun k => (k, g k))).map Prod.fst) = keys := by
  intro keys
  induction keys with
  | nil => rfl
  | cons k ks ih => simp [ih]

lemma grouped_sorted (rows : List ExpenseRecord) :
    (((((rows.map ExpenseRecord.categoryName).dedup).insertionSort (· ≤ ·)).map
        (fun k => (k, ((rows.filter (fun r => r.categoryName == k)).map
          ExpenseRecord.amount).sum))).map Prod.fst).Sorted (· < ·) := by
  have hkeys : ((((rows.map ExpenseRecord.categoryName).dedup).insertionSort
      (· ≤ ·))).Sorted (· < ·) :=
    (List.sorted_insertionSort (· ≤ ·) _).lt_of_le
      ((List.perm_insertionSort _ _).nodup_iff.mpr (List.nodup_dedup _))
  rw [map_fst_map_pair]
  exact hkeys

lemma grouped_lookup (rows : List ExpenseRecord) (n : String) :
    ((((rows.map ExpenseRecord.categoryName).dedup).insertionSort (· ≤ ·)).map
        (fun k => (k, ((rows.filter (fun r => r.categoryName == k)).map
          ExpenseRecord.amount).sum))).lookup n
      = if rows.filter (fun r => r.categoryName == n) = [] then none
        else some (((rows.filter (fun r => r.categoryName == n)).map
          ExpenseRecord.amount).sum) := by
  rw [lookup_map_self]
  have hmem : n ∈ ((rows.map ExpenseRecord.categoryName).dedup).insertionSort (· ≤ ·)
      ↔ rows.filter (fun r => r.categoryName == n) ≠ [] := by
    rw [List.mem_insertionSort, List.mem_dedup]
    exact mem_map_name_iff rows n
  by_cases h : rows.filter (fun r => r.categoryName == n) = []
  · rw [if_neg (fun hk => (hmem.mp hk) h), if_pos h]
  · rw [if_pos (hmem.mpr h), if_neg h]


lemma conds2_all_elim (sd ed : Option String) (r : ExpenseRecord) :
    (condStart sd ++ condEnd ed).all (fun c => c r)
      = ((sd.elim true fun d => (d == "") || decide (d ≤ r.date))
         && (ed.elim true fun d => (d == "") || decide (r.date ≤ d))) := by
  rw [List.all_append, condStart_all, condEnd_all]
  cases sd <;> cases ed <;> rfl

/-- C1: on a connected store, `get_spending_by_category` has its keys in
strictly ascending category-name order, and looking up any category name
yields the sum of `amount` over exactly the expenses resolving to that
name and lying in the optional inclusive date range, or `none` (absent)
when no expense matches. -/
theorem getSpendingByCategory_groups_sums (s : DBState) (sd ed : Option String)
    (hconn : s.connected = true) :
    ((get_spending_by_category s sd ed false).map Prod.fst).Sorted (· < ·) ∧
    ∀ n : String,
      (get_spending_by_category s sd ed false).lookup n =
        (if (s.expenses.filter (fun e =>
              ((joinRow s.categories e).elim false fun r => r.categoryName == n)
              && ((sd.elim true fun d => (d == "") || decide (d ≤ e.date))
                  && (ed.elim true fun d => (d == "") || decide (e.date ≤ d))))) = []
         then none
         else some (((s.expenses.filter (fun e =>
              ((joinRow s.categories e).elim false fun r => r.categoryName == n)
              && ((sd.elim true fun d => (d == "") || decide (d ≤ e.date))
                  && (ed.elim true fun d => (d == "") || decide (e.date ≤ d))))).map
            Expense.amount).sum)) := by
  have hdef : get_spending_by_category s sd ed false
      = ((((((s.expenses.filterMap (joinRow s.categories)).filter
            (fun r => (condStart sd ++ condEnd ed).all (fun c => c r))).map
            ExpenseRecord.categoryName).dedup).insertionSort (· ≤ ·)).map
          (fun k => (k, ((((s.expenses.filterMap (joinRow s.categories)).filter
            (fun r => (condStart sd ++ condEnd ed).all (fun c => c r))).filter
            (fun r => r.categoryName == k)).map ExpenseRecord.amount).sum))) := by
    unfold get_spending_by_category
    simp [hconn]
  have hdf : ∀ (e : Expense) (r : ExpenseRecord), joinRow s.categories e = some r →
      ((condStart sd ++ condEnd ed).all (fun c => c r))
        = ((sd.elim true fun d => (d == "") || decide (d ≤ e.date))
           && (ed.elim true fun d => (d == "") || decide (e.date ≤ d))) := by
    intro e r hj
    rw [conds2_all_elim, (joinRow_fields hj).2.2.1]
  constructor
  · rw [hdef]
    exact grouped_sorted _
  · intro n
    rw [hdef, grouped_lookup]
    have hamounts := filterMap_join_amounts s.categories
      (fun r => (condStart sd ++ condEnd ed).all (fun c => c r))
      (fun e => (sd.elim true fun d => (d == "") || decide (d ≤ e.date))
             && (ed.elim true fun d => (d == "") || decide (e.date ≤ d)))
      n hdf s.expenses
    have hlen := congrArg List.length hamounts
    simp only [List.length_map] at hlen
    by_cases h : ((s.expenses.filterMap (joinRow s.categories)).filter
        (fun r => (condStart sd ++ condEnd ed).all (fun c => c r))).filter
        (fun r => r.categoryName == n) = []
    · have hnil : s.expenses.filter (fun e =>
            ((joinRow s.categories e).elim false fun r => r.categoryName == n)
            && ((sd.elim true fun d => (d == "") || decide (d ≤ e.date))
                && (ed.elim true fun d => (d == "") || decide (e.date ≤ d)))) = [] := by
        apply List.length_eq_zero.mp
        rw [← hlen, h]
        rfl
      rw [if_pos h, if_pos hnil]
    · have hne : ¬ s.expenses.filter (fun e =>
            ((joinRow s.categories e).elim false fun r => r.categoryName == n)
            && ((sd.elim true fun d => (d == "") || decide (d ≤ e.date))
                && (ed.elim true fun d => (d == "") || decide (e.date ≤ d)))) = [] := by
        intro hc
        apply h
        apply List.length_eq_zero.mp
        rw [hlen, hc]
        rfl
      rw [if_neg h, if_neg hne]
      exact congrArg some (congrArg List.sum hamounts)

/-- Witness for C1 on the worked scenario store (two `Food` expenses of
50 and 20): the keys are sorted, `Food` maps to 70 and an unknown name
is absent. -/
theorem getSpendingByCategory_groups_sums_witness :
    ((get_spending_by_category (⟨true, [⟨1, "Food"⟩],
        [⟨1, 50, 1, "2024-01-10", "Lunch"⟩, ⟨2, 20, 1, "2024-01-12", ""⟩], 2, 3⟩ : DBState)
        none none false).map Prod.fst).Sorted (· < ·) ∧
    (get_spending_by_category (⟨true, [⟨1, "Food"⟩],
        [⟨1, 50, 1, "2024-01-10", "Lunch"⟩, ⟨2, 20, 1, "2024-01-12", ""⟩], 2, 3⟩ : DBState)
        none none false).lookup "Food" = some 70 ∧
    (get_spending_by_category (⟨true, [⟨1, "Food"⟩],
        [⟨1, 50, 1, "2024-01-10", "Lunch"⟩, ⟨2, 20, 1, "2024-01-12", ""⟩], 2, 3⟩ : DBState)
        none none false).lookup "Ghost" = none := by
  have h := getSpendingByCategory_groups_sums (⟨true, [⟨1, "Food"⟩],
    [⟨1, 50, 1, "2024-01-10", "Lunch"⟩, ⟨2, 20, 1, "2024-01-12", ""⟩], 2, 3⟩ : DBState)
    none none rfl
  refine ⟨h.1, ?_, ?_⟩
  · rw [h.2 "Food"]
    decide
  · rw [h.2 "Ghost"]
    decide
